import Mathlib

/-!
Shallow embedding of the PG-listing form (`PGListingForm`) and the
`ProgressTracker` widget.

The form component owns a single mutable record (`FormData`), a display
flag `showPreview`, and a family of event handlers.  Each handler is
translated here as a pure state-transformer; toast notifications are
returned explicitly as values of type `Toast`.
-/

/-- A toast notification, as passed to the `toast(...)` collaborator:
title, description and variant. -/
structure Toast where
  title : String
  description : String
  variant : String
deriving DecidableEq

/-- A JavaScript number as stored in `sharingPrices`: either NaN or an
actual (rational) numeric value.  (The source type is `number`; `null`
is represented separately by `Option`.) -/
inductive JSNumber where
  | nan : JSNumber
  | val (q : ℚ) : JSNumber
deriving DecidableEq

/-- `n > 0` with JavaScript comparison semantics: `NaN > 0` is `false`. -/
def JSNumber.gtZero : JSNumber → Bool
  | .nan => false
  | .val q => decide (0 < q)

/-- Digit run to a natural number, `'0'..'9'` only. -/
def digitsToNat (l : List Char) : Nat :=
  l.foldl (fun a c => a * 10 + (c.toNat - 48)) 0

/-- Parse an unsigned decimal numeral `digits [ '.' digits ]` (at least one
digit overall), as `Number()` does on such inputs. -/
def parseDecimal (l : List Char) : Option ℚ :=
  let ip := l.takeWhile Char.isDigit
  match l.dropWhile Char.isDigit with
  | [] => if ip.isEmpty then none else some (digitsToNat ip : ℚ)
  | '.' :: fp =>
      if fp.all Char.isDigit && !(ip.isEmpty && fp.isEmpty) then
        some ((digitsToNat ip : ℚ) + (digitsToNat fp : ℚ) / ((10 : ℚ) ^ fp.length))
      else none
  | _ => none

/-- Models the JavaScript `Number(value)` conversion on the plain decimal
numerals produced by the numeric inputs of this form (an optional sign
followed by a decimal numeral); every other shape is mapped to NaN.
The caller (`handleSharingPriceChange`) never passes the empty string. -/
def jsNumber (s : String) : JSNumber :=
  match s.data with
  | '-' :: rest =>
      match parseDecimal rest with
      | some q => .val (-q)
      | none => .nan
  | '+' :: rest =>
      match parseDecimal rest with
      | some q => .val q
      | none => .nan
  | l =>
      match parseDecimal l with
      | some q => .val q
      | none => .nan

/-- An uploaded image file, identified abstractly (file contents are
irrelevant to the logic under verification). -/
abbrev ImageFile := Nat

/-- The ten amenity flags of `AmenitiesType`. -/
structure Amenities where
  wifi : Bool
  washingMachine : Bool
  biometric : Bool
  ac : Bool
  gym : Bool
  powerBackup : Bool
  geyser : Bool
  roWater : Bool
  parking : Bool
  housekeeping : Bool
deriving DecidableEq

/-- Names of the ten amenity flags, as used by `handleCheckboxChange`. -/
inductive AmenityName where
  | wifi | washingMachine | biometric | ac | gym
  | powerBackup | geyser | roWater | parking | housekeeping
deriving DecidableEq

/-- Dynamic read `amenities[name]`. -/
def amenityGet (a : Amenities) : AmenityName → Bool
  | .wifi => a.wifi
  | .washingMachine => a.washingMachine
  | .biometric => a.biometric
  | .ac => a.ac
  | .gym => a.gym
  | .powerBackup => a.powerBackup
  | .geyser => a.geyser
  | .roWater => a.roWater
  | .parking => a.parking
  | .housekeeping => a.housekeeping

/-- Dynamic write `{ ...a, [name]: b }`. -/
def amenitySet (n : AmenityName) (b : Bool) (a : Amenities) : Amenities :=
  match n with
  | .wifi => { a with wifi := b }
  | .washingMachine => { a with washingMachine := b }
  | .biometric => { a with biometric := b }
  | .ac => { a with ac := b }
  | .gym => { a with gym := b }
  | .powerBackup => { a with powerBackup := b }
  | .geyser => { a with geyser := b }
  | .roWater => { a with roWater := b }
  | .parking => { a with parking := b }
  | .housekeeping => { a with housekeeping := b }

/-- The form record (`FormData` in the source).  `sharingPrices` is a
JavaScript object, embedded as an insertion-ordered association list so
that its key set is part of the state rather than fixed by the type. -/
structure FormData where
  pgName : String
  address : String
  googleMapsLink : String
  pgType : String
  preferredTenants : String
  ownerName : String
  primaryMobile : String
  secondaryMobile : String
  whatsappNumber : String
  email : String
  sharingPrices : List (String × Option JSNumber)
  deposit : String
  refundPolicy : String
  noticePeriod : String
  amenities : Amenities
  bathroomType : String
  otherAmenities : String
  images : Option (List ImageFile)
  videoLink : String
deriving DecidableEq

/-- The initial `useState` value of the record. -/
def initialFormData : FormData where
  pgName := ""
  address := ""
  googleMapsLink := ""
  pgType := "co-living"
  preferredTenants := "anyone"
  ownerName := ""
  primaryMobile := ""
  secondaryMobile := ""
  whatsappNumber := ""
  email := ""
  sharingPrices := [("1", none), ("2", none), ("3", none), ("4", none), ("5", none)]
  deposit := ""
  refundPolicy := ""
  noticePeriod := ""
  amenities :=
    { wifi := false, washingMachine := false, biometric := false, ac := false
      gym := false, powerBackup := false, geyser := false, roWater := false
      parking := false, housekeeping := false }
  bathroomType := "attached"
  otherAmenities := ""
  images := none
  videoLink := ""

/-- Component state: the record plus the `showPreview` display flag. -/
structure AppState where
  formData : FormData
  showPreview : Bool
deriving DecidableEq

/-- Initial component state: editing mode. -/
def initialAppState : AppState := ⟨initialFormData, false⟩

/-- The text fields reachable through `handleInputChange` (the `name`
attributes wired to it in the markup). -/
inductive TextField where
  | pgName | address | googleMapsLink | ownerName | primaryMobile
  | secondaryMobile | whatsappNumber | email | deposit | refundPolicy
  | noticePeriod | otherAmenities | videoLink
deriving DecidableEq

/-- `handleInputChange`: `setFormData(prev => ({ ...prev, [name]: value }))`. -/
def handleInputChange (f : TextField) (v : String) (fd : FormData) : FormData :=
  match f with
  | .pgName => { fd with pgName := v }
  | .address => { fd with address := v }
  | .googleMapsLink => { fd with googleMapsLink := v }
  | .ownerName => { fd with ownerName := v }
  | .primaryMobile => { fd with primaryMobile := v }
  | .secondaryMobile => { fd with secondaryMobile := v }
  | .whatsappNumber => { fd with whatsappNumber := v }
  | .email => { fd with email := v }
  | .deposit => { fd with deposit := v }
  | .refundPolicy => { fd with refundPolicy := v }
  | .noticePeriod => { fd with noticePeriod := v }
  | .otherAmenities => { fd with otherAmenities := v }
  | .videoLink => { fd with videoLink := v }

/-- The radio-style fields reachable through `handleRadioChange`. -/
inductive RadioField where
  | pgType | preferredTenants | bathroomType
deriving DecidableEq

/-- `handleRadioChange`: `setFormData(prev => ({ ...prev, [name]: value }))`. -/
def handleRadioChange (f : RadioField) (v : String) (fd : FormData) : FormData :=
  match f with
  | .pgType => { fd with pgType := v }
  | .preferredTenants => { fd with preferredTenants := v }
  | .bathroomType => { fd with bathroomType := v }

/-- `handleCheckboxChange(name)`:
`{ ...prev, amenities: { ...prev.amenities, [name]: !prev.amenities[name] } }`. -/
def handleCheckboxChange (n : AmenityName) (fd : FormData) : FormData :=
  { fd with amenities := amenitySet n (!(amenityGet fd.amenities n)) fd.amenities }

/-- JavaScript object update `{ ...m, [k]: v }` on an insertion-ordered
association list: overwrite in place when the key exists, append otherwise. -/
def objSet (m : List (String × Option JSNumber)) (k : String) (v : Option JSNumber) :
    List (String × Option JSNumber) :=
  if m.any (fun p => p.1 == k) then
    m.map (fun p => if p.1 == k then (k, v) else p)
  else
    m ++ [(k, v)]

/-- `handleSharingPriceChange(key, value)`: stores `null` for the empty
string, otherwise `Number(value)`. -/
def handleSharingPriceChange (key value : String) (fd : FormData) : FormData :=
  { fd with sharingPrices :=
      objSet fd.sharingPrices key (if value == "" then none else some (jsNumber value)) }

/-- The toast issued by `handleImageChange` on a rejected selection. -/
def imageUploadErrorToast : Toast :=
  ⟨"Image Upload Error", "Please select between 1 and 10 images.", "destructive"⟩

/-- `handleImageChange`: accepts `e.target.files` only when it is non-null
with `0 < length ≤ 10`; otherwise the state is untouched and an error
toast is emitted. -/
def handleImageChange (files : Option (List ImageFile)) (st : AppState) :
    AppState × List Toast :=
  match files with
  | some fs =>
      if 0 < fs.length ∧ fs.length ≤ 10 then
        (⟨{ st.formData with images := some fs }, st.showPreview⟩, [])
      else
        (st, [imageUploadErrorToast])
  | none => (st, [imageUploadErrorToast])

/-- Insert a space before each upper-case letter, as the regex
`replace(/([A-Z])/g, ' $1')` does. -/
def expandCaps : List Char → List Char
  | [] => []
  | c :: rest =>
      if c.isUpper then ' ' :: c :: expandCaps rest else c :: expandCaps rest

/-- Upper-case the first character, as `replace(/^./, s => s.toUpperCase())`. -/
def upperFirst : List Char → List Char
  | [] => []
  | c :: rest => c.toUpper :: rest

/-- The field-identifier-to-label transform used in required-field
messages: camel case to space-separated words, first letter capitalised. -/
def camelToWords (s : String) : String :=
  String.mk (upperFirst (expandCaps s.data))

/-- A validation-error toast with the given description. -/
def validationToast (msg : String) : Toast :=
  ⟨"Validation Error", msg, "destructive"⟩

/-- The message of a failing required-field check. -/
def requiredMsg (field : String) : String :=
  camelToWords field ++ " is required"

/-- The `requiredFields` list of `validateForm`, paired with the record
accessor each name denotes. -/
def requiredFields : List (String × (FormData → String)) :=
  [("pgName", FormData.pgName), ("address", FormData.address),
   ("ownerName", FormData.ownerName), ("primaryMobile", FormData.primaryMobile),
   ("email", FormData.email)]

/-- The mobile-number test `/^\d{10}$/.test(s)`: the anchored pattern holds
exactly of ten-character digit strings. -/
def mobileTest (l : List Char) : Bool :=
  l.length == 10 && l.all Char.isDigit

/-- The character class `[^\s@]` of the email regex, where `\s` is the
JavaScript whitespace class. -/
def jsWhitespace (c : Char) : Bool :=
  c == ' ' || c == '\t' || c == '\n' || c == '\r' || c == '\u000b' || c == '\u000c' ||
  c == '\u00a0' || c == '\u1680' || ('\u2000' ≤ c && c ≤ '\u200a') ||
  c == '\u2028' || c == '\u2029' || c == '\u202f' || c == '\u205f' ||
  c == '\u3000' || c == '\ufeff'

/-- A character admitted by `[^\s@]`. -/
def emailClassChar (c : Char) : Bool :=
  !(jsWhitespace c) && !(c == '@')

/-- Does the list contain a `'.'` with at least one character after it? -/
def dotNotLast : List Char → Bool
  | [] => false
  | c :: rest => (c == '.' && !rest.isEmpty) || dotNotLast rest

/-- Does the list contain a `'.'` with at least one character before it and
at least one after it? -/
def hasMidDot : List Char → Bool
  | [] => false
  | _ :: xs => dotNotLast xs

/-- The email test `/^[^\s@]+@[^\s@]+\.[^\s@]+$/.test(s)`.  Since the
class `[^\s@]` excludes `'@'`, the `@` of the pattern can only match the
character ending the maximal class-prefix; the part after it must be all
class characters and admit a split `b ++ '.' :: c` with `b, c` non-empty,
i.e. contain an interior dot (`'.'` itself lies in the class). -/
def emailTest (l : List Char) : Bool :=
  match l.dropWhile emailClassChar with
  | y :: r =>
      y == '@' && !(l.takeWhile emailClassChar).isEmpty &&
      r.all emailClassChar && hasMidDot r
  | [] => false

/-- Denotation of the anchored email regex `^[^\s@]+@[^\s@]+\.[^\s@]+$`:
some decomposition into a non-empty class run, a literal `'@'`, a
non-empty class run, a literal `'.'`, and a non-empty class run. -/
def emailRegexAccepts (l : List Char) : Prop :=
  ∃ a b c : List Char,
    l = a ++ '@' :: (b ++ '.' :: c) ∧ a ≠ [] ∧ b ≠ [] ∧ c ≠ [] ∧
    (∀ x ∈ a, emailClassChar x = true) ∧
    (∀ x ∈ b, emailClassChar x = true) ∧
    (∀ x ∈ c, emailClassChar x = true)

/-- The shape described by the specification for accepted email strings:
no whitespace, exactly one `'@'` with non-empty text before it, and some
`'.'` after the `'@'` with non-empty text on both sides of it. -/
def emailShapeOk (l : List Char) : Prop :=
  (∀ x ∈ l, jsWhitespace x = false) ∧ l.count '@' = 1 ∧
  ∃ a r, l = a ++ '@' :: r ∧ a ≠ [] ∧
    ∃ b c, r = b ++ '.' :: c ∧ b ≠ [] ∧ c ≠ []

/-- The sharing-price rule:
`Object.values(formData.sharingPrices).some(p => p !== null && p > 0)`. -/
def hasPrice (fd : FormData) : Bool :=
  fd.sharingPrices.any (fun p =>
    match p.2 with
    | none => false
    | some n => n.gtZero)

/-- The image rule: negation of `!formData.images || formData.images.length === 0`. -/
def hasImages (fd : FormData) : Bool :=
  match fd.images with
  | none => false
  | some l => !l.isEmpty

/-- The required-field loop of `validateForm`: first falsy field, in list
order, yields its toast. -/
def requiredCheck (fd : FormData) : Option Toast :=
  requiredFields.findSome? (fun p =>
    if p.2 fd == "" then some (validationToast (requiredMsg p.1)) else none)

/-- `validateForm()`, with the emitted toast made explicit: `some t` means
the function toasts `t` and returns `false`; `none` means it returns
`true`. -/
def validateForm (fd : FormData) : Option Toast :=
  match requiredCheck fd with
  | some t => some t
  | none =>
      if !mobileTest fd.primaryMobile.data then
        some (validationToast "Primary mobile number must be 10 digits")
      else if !emailTest fd.email.data then
        some (validationToast "Please enter a valid email address")
      else if !hasPrice fd then
        some (validationToast "Enter at least one sharing option price")
      else if !hasImages fd then
        some (validationToast "Please upload at least one image")
      else
        none

/-- The validation rules in specification order: a passing flag paired
with the toast reported when the rule fails. -/
def specRules (fd : FormData) : List (Bool × Toast) :=
  requiredFields.map (fun p =>
    (!(p.2 fd == ""), validationToast (requiredMsg p.1))) ++
  [(mobileTest fd.primaryMobile.data,
      validationToast "Primary mobile number must be 10 digits"),
   (emailTest fd.email.data,
      validationToast "Please enter a valid email address"),
   (hasPrice fd,
      validationToast "Enter at least one sharing option price"),
   (hasImages fd,
      validationToast "Please upload at least one image")]

/-- First failing rule of an ordered rule list, if any. -/
def firstFailure (rules : List (Bool × Toast)) : Option Toast :=
  rules.findSome? (fun r => if r.1 then none else some r.2)

/-- The specification's description of `validate()`: report the first
failing rule, in order, else succeed. -/
def specValidate (fd : FormData) : Option Toast :=
  firstFailure (specRules fd)

/-- Outcome of `handleSubmit`: the new state, the toasts emitted, and
whether `window.scrollTo(0, 0)` ran. -/
structure SubmitResult where
  state : AppState
  toasts : List Toast
  scrolledToTop : Bool
deriving DecidableEq

/-- `handleSubmit`: `if (validateForm()) { setShowPreview(true); window.scrollTo(0, 0); }`. -/
def handleSubmit (st : AppState) : SubmitResult :=
  match validateForm st.formData with
  | none => ⟨⟨st.formData, true⟩, [], true⟩
  | some t => ⟨st, [t], false⟩

/-- The events the component can receive.  `sharingPriceChange` carries a
`Fin 5` key index because `handleSharingPriceChange` is only invoked from
the render loop over `[1, 2, 3, 4, 5]`, with key `num.toString()`. -/
inductive Op where
  | inputChange (f : TextField) (v : String)
  | radioChange (f : RadioField) (v : String)
  | checkboxChange (n : AmenityName)
  | sharingPriceChange (k : Fin 5) (v : String)
  | imageChange (files : Option (List ImageFile))
  | submit
  | backToEdit
  | post

/-- One event step.  `backToEdit` is the preview-mode Edit button
(`setShowPreview(false)`); `post` only toasts and logs. -/
def applyOp (st : AppState) : Op → AppState
  | .inputChange f v => ⟨handleInputChange f v st.formData, st.showPreview⟩
  | .radioChange f v => ⟨handleRadioChange f v st.formData, st.showPreview⟩
  | .checkboxChange n => ⟨handleCheckboxChange n st.formData, st.showPreview⟩
  | .sharingPriceChange k v =>
      ⟨handleSharingPriceChange (toString (k.val + 1)) v st.formData, st.showPreview⟩
  | .imageChange files => (handleImageChange files st).1
  | .submit => (handleSubmit st).state
  | .backToEdit => ⟨st.formData, false⟩
  | .post => st

/-- A whole session: the event sequence applied to the initial state. -/
def applyOps (ops : List Op) : AppState :=
  ops.foldl applyOp initialAppState

/-- Does a stored sharing price conform to `null or a non-negative
integer amount`? -/
def isNullOrNonnegInt : Option JSNumber → Bool
  | none => true
  | some .nan => false
  | some (.val q) => decide (0 ≤ q) && q.den == 1

/-- Marker styling of `ProgressTracker`. -/
inductive StepStyle where
  | completed | current | pending
deriving DecidableEq

/-- Rendered header of `ProgressTracker`: either one marker per label, or
the three-part `Start` / percentage / `Complete` fallback. -/
inductive TrackerHeader where
  | markers (items : List (String × StepStyle))
  | plain (startText percentText endText : String)
deriving DecidableEq

/-- `Math.round`, on rationals: floor of `q + 1/2`. -/
def jsRound (q : ℚ) : Int := ⌊q + 1 / 2⌋

/-- `progress = Math.round((currentStep / totalSteps) * 100)`. -/
def progressOf (currentStep totalSteps : Int) : Int :=
  jsRound ((currentStep : ℚ) / (totalSteps : ℚ) * 100)

/-- Style of the marker at a given label index:
`index < currentStep ? completed : index === currentStep ? current : pending`. -/
def markerStyle (index : Nat) (currentStep : Int) : StepStyle :=
  if (index : Int) < currentStep then .completed
  else if (index : Int) = currentStep then .current
  else .pending

/-- `labels.map((label, index) => ...)`: one styled marker per label. -/
def trackerMarkers (currentStep : Int) (labels : List String) :
    List (String × StepStyle) :=
  labels.enum.map (fun p => (p.2, markerStyle p.1 currentStep))

/-- The header `ProgressTracker` renders: markers when `labels.length` is
truthy, the percentage fallback otherwise. -/
def renderHeader (currentStep totalSteps : Int) (labels : List String) :
    TrackerHeader :=
  if labels.length ≠ 0 then .markers (trackerMarkers currentStep labels)
  else .plain "Start" (toString (progressOf currentStep totalSteps) ++ "%") "Complete"

/-- A record that passes all five validation rules (used to exercise the
success path of `handleSubmit`). -/
def validFormData : FormData :=
  { initialFormData with
      pgName := "Sunrise PG", address := "12 Main Road", ownerName := "Asha Rao",
      primaryMobile := "9876543210", email := "a@b.com",
      sharingPrices :=
        [("1", none), ("2", some (JSNumber.val 5000)), ("3", none), ("4", none), ("5", none)],
      images := some [0] }

/-- C1: `submit()` runs `validate()`; when validation succeeds the display
mode transitions to previewing with a scroll-to-top side effect and the
record unchanged; when any rule fails the whole state (display mode and
record) is left exactly as it was, with only the failing rule's toast
emitted. -/
theorem submit_validates_and_transitions : ∀ st : AppState,
    (validateForm st.formData = none →
       handleSubmit st = ⟨⟨st.formData, true⟩, [], true⟩)
  ∧ (∀ t, validateForm st.formData = some t →
       handleSubmit st = ⟨st, [t], false⟩) := by
  intro st
  constructor
  · intro h
    simp [handleSubmit, h]
  · intro t h
    simp [handleSubmit, h]

/-- Witness for C1: the success path on a fully valid record, and the
failure path from the initial (empty) record. -/
theorem submit_validates_and_transitions_witness :
    handleSubmit ⟨validFormData, false⟩ = ⟨⟨validFormData, true⟩, [], true⟩ ∧
    handleSubmit initialAppState =
      ⟨initialAppState, [validationToast "Pg Name is required"], false⟩ :=
  ⟨(submit_validates_and_transitions ⟨validFormData, false⟩).1 (by decide),
   (submit_validates_and_transitions initialAppState).2 _ (by decide)⟩

/-- C6: `handleImageChange` replaces the stored images with the selection
exactly when its count lies in `1..10`; any other selection (including a
null file list) leaves the whole state unchanged and emits the error
toast. -/
theorem setImages_all_or_nothing : ∀ (st : AppState) (fs : List ImageFile),
    (1 ≤ fs.length ∧ fs.length ≤ 10 →
       handleImageChange (some fs) st =
         (⟨{ st.formData with images := some fs }, st.showPreview⟩, []))
  ∧ (¬(1 ≤ fs.length ∧ fs.length ≤ 10) →
       handleImageChange (some fs) st = (st, [imageUploadErrorToast]))
  ∧ handleImageChange none st = (st, [imageUploadErrorToast]) := by
  intro st fs
  refine ⟨?_, ?_, rfl⟩
  · intro h
    simp only [handleImageChange]
    split
    · rfl
    · next hcond => exact absurd ⟨h.1, h.2⟩ hcond
  · intro h
    simp only [handleImageChange]
    split
    · next hcond => exact absurd ⟨hcond.1, hcond.2⟩ h
    · rfl

/-- Witness for C6: one file accepted, zero and eleven files rejected. -/
theorem setImages_all_or_nothing_witness :
    handleImageChange (some [0]) initialAppState =
      (⟨{ initialAppState.formData with images := some [0] }, initialAppState.showPreview⟩, []) ∧
    handleImageChange (some []) initialAppState = (initialAppState, [imageUploadErrorToast]) ∧
    handleImageChange (some [0, 1, 2, 3, 4, 5, 6, 7, 8, 9, 10]) initialAppState =
      (initialAppState, [imageUploadErrorToast]) :=
  ⟨(setImages_all_or_nothing initialAppState [0]).1 (by decide),
   (setImages_all_or_nothing initialAppState []).2.1 (by decide),
   (setImages_all_or_nothing initialAppState [0, 1, 2, 3, 4, 5, 6, 7, 8, 9, 10]).2.1 (by decide)⟩

/-- C7: `toggleAmenity(name)` negates exactly the named flag, leaving the
other nine flags and every other record field unchanged. -/
theorem toggleAmenity_flips_exactly_one : ∀ (fd : FormData) (n : AmenityName),
    amenityGet (handleCheckboxChange n fd).amenities n = !(amenityGet fd.amenities n)
  ∧ (∀ m, m ≠ n →
      amenityGet (handleCheckboxChange n fd).amenities m = amenityGet fd.amenities m)
  ∧ (handleCheckboxChange n fd).pgName = fd.pgName
  ∧ (handleCheckboxChange n fd).address = fd.address
  ∧ (handleCheckboxChange n fd).googleMapsLink = fd.googleMapsLink
  ∧ (handleCheckboxChange n fd).pgType = fd.pgType
  ∧ (handleCheckboxChange n fd).preferredTenants = fd.preferredTenants
  ∧ (handleCheckboxChange n fd).ownerName = fd.ownerName
  ∧ (handleCheckboxChange n fd).primaryMobile = fd.primaryMobile
  ∧ (handleCheckboxChange n fd).secondaryMobile = fd.secondaryMobile
  ∧ (handleCheckboxChange n fd).whatsappNumber = fd.whatsappNumber
  ∧ (handleCheckboxChange n fd).email = fd.email
  ∧ (handleCheckboxChange n fd).sharingPrices = fd.sharingPrices
  ∧ (handleCheckboxChange n fd).deposit = fd.deposit
  ∧ (handleCheckboxChange n fd).refundPolicy = fd.refundPolicy
  ∧ (handleCheckboxChange n fd).noticePeriod = fd.noticePeriod
  ∧ (handleCheckboxChange n fd).bathroomType = fd.bathroomType
  ∧ (handleCheckboxChange n fd).otherAmenities = fd.otherAmenities
  ∧ (handleCheckboxChange n fd).images = fd.images
  ∧ (handleCheckboxChange n fd).videoLink = fd.videoLink := by
  intro fd n
  refine ⟨?_, ?_, rfl, rfl, rfl, rfl, rfl, rfl, rfl, rfl, rfl, rfl, rfl, rfl, rfl, rfl,
    rfl, rfl, rfl, rfl⟩
  · cases n <;> rfl
  · intro m hm
    cases n <;> cases m <;> first | rfl | exact absurd rfl hm

/-- Witness for C7: toggling wifi leaves the ac flag unchanged. -/
theorem toggleAmenity_flips_exactly_one_witness :
    amenityGet (handleCheckboxChange AmenityName.wifi initialFormData).amenities AmenityName.ac
      = amenityGet initialFormData.amenities AmenityName.ac :=
  (toggleAmenity_flips_exactly_one initialFormData AmenityName.wifi).2.1 AmenityName.ac
    (by decide)

/-- C3: the `/^\d{10}$/` rule accepts a string exactly when it is ten
characters long and every character is a decimal digit; `"12345"` fails
and `"9876543210"` passes. -/
theorem mobile_rule_ten_digits : ∀ l : List Char,
    (mobileTest l = true ↔ l.length = 10 ∧ ∀ c ∈ l, '0' ≤ c ∧ c ≤ '9')
  ∧ mobileTest "12345".data = false ∧ mobileTest "9876543210".data = true := by
  intro l
  have hdig : ∀ c : Char, c.isDigit = true ↔ '0' ≤ c ∧ c ≤ '9' := by
    intro c
    simp [Char.isDigit, Char.le_def]
  refine ⟨?_, by decide, by decide⟩
  simp [mobileTest, List.all_eq_true, hdig]

/-- Pointwise reading of the `some(price => price !== null && price > 0)`
predicate. -/
theorem priceEntryPos_iff : ∀ x : Option JSNumber,
    (match x with | none => false | some n => n.gtZero) = true ↔
      ∃ q : ℚ, x = some (JSNumber.val q) ∧ 0 < q := by
  intro x
  match x with
  | none => simp
  | some .nan => simp [JSNumber.gtZero]
  | some (.val q) => simp [JSNumber.gtZero]

/-- C5: the sharing-price rule passes exactly when some entry is non-null
and strictly positive, and fails exactly when every entry is null or not
strictly positive; the default record fails, and storing 5000 under key
"2" satisfies the rule. -/
theorem sharing_price_rule : ∀ fd : FormData,
    (hasPrice fd = true ↔
       ∃ p ∈ fd.sharingPrices, ∃ q : ℚ, p.2 = some (JSNumber.val q) ∧ 0 < q)
  ∧ (hasPrice fd = false ↔
       ∀ p ∈ fd.sharingPrices, p.2 = none ∨ ∀ q : ℚ, p.2 = some (JSNumber.val q) → q ≤ 0)
  ∧ hasPrice initialFormData = false
  ∧ hasPrice (handleSharingPriceChange "2" "5000" initialFormData) = true := by
  intro fd
  have hpos : hasPrice fd = true ↔
      ∃ p ∈ fd.sharingPrices, ∃ q : ℚ, p.2 = some (JSNumber.val q) ∧ 0 < q := by
    simp [hasPrice, List.any_eq_true, priceEntryPos_iff]
  refine ⟨hpos, ?_, by decide, by decide⟩
  rw [Bool.eq_false_iff, Ne, hpos]
  push_neg
  constructor
  · intro h p hp
    exact Or.inr (fun q hq => h p hp q hq)
  · rintro h p hp q hq
    rcases h p hp with hnone | hall
    · rw [hnone] at hq
      cases hq
    · exact hall q hq

/-- C8: `ProgressTracker` computes `round(100 * currentStep / totalSteps)`
(50 for step 2 of 4); with labels, the marker at index `i` is completed
for `i < currentStep`, current for `i = currentStep` and pending
otherwise, and the percentage text appears only in the no-labels
fallback. -/
theorem progress_tracker_render : ∀ (c t : Int) (labels : List String), 1 ≤ t →
    progressOf c t = ⌊100 * (c : ℚ) / (t : ℚ) + 1 / 2⌋
  ∧ progressOf 2 4 = 50
  ∧ (∀ (i : Nat) (lab : String), labels[i]? = some lab →
      (trackerMarkers c labels)[i]? =
        some (lab, if (i : Int) < c then StepStyle.completed
                   else if (i : Int) = c then StepStyle.current
                   else StepStyle.pending))
  ∧ (labels ≠ [] →
      renderHeader c t labels = TrackerHeader.markers (trackerMarkers c labels))
  ∧ (labels = [] →
      renderHeader c t labels =
        TrackerHeader.plain "Start" (toString (progressOf c t) ++ "%") "Complete") := by
  intro c t labels ht
  refine ⟨?_, by norm_num [progressOf, jsRound], ?_, ?_, ?_⟩
  · unfold progressOf jsRound
    congr 1
    ring
  · intro i lab hlab
    simp [trackerMarkers, List.getElem?_map, List.getElem?_enum, hlab, markerStyle]
  · intro h
    simp [renderHeader, h]
  · intro h
    subst h
    simp [renderHeader]

/-- Witness for C8: step 2 of 4 with labels A–D. -/
theorem progress_tracker_render_witness :
    progressOf 2 4 = 50 ∧
    (trackerMarkers 2 ["A", "B", "C", "D"])[1]? = some ("B", StepStyle.completed) ∧
    (trackerMarkers 2 ["A", "B", "C", "D"])[2]? = some ("C", StepStyle.current) ∧
    (trackerMarkers 2 ["A", "B", "C", "D"])[3]? = some ("D", StepStyle.pending) := by
  have h := progress_tracker_render 2 4 ["A", "B", "C", "D"] (by decide)
  refine ⟨h.2.1, ?_, ?_, ?_⟩
  · simpa using h.2.2.1 1 "B" rfl
  · simpa using h.2.2.1 2 "C" rfl
  · simpa using h.2.2.1 3 "D" rfl

/-- C10 counterexample: with `currentStep = -1, totalSteps = 300` the
computed progress is `round(-1/3) = 0`, not negative, so a negative
`currentStep` does not always yield a negative progress value. -/
theorem progress_negative_counterexample :
    ¬ (∀ c t : Int, 1 ≤ t → c < 0 → progressOf c t < 0) := by
  intro h
  have h2 := h (-1) 300 (by decide) (by decide)
  have h3 : progressOf (-1) 300 = 0 := by norm_num [progressOf, jsRound]
  rw [h3] at h2
  exact absurd h2 (by decide)

/-- C10 (amended): `ProgressTracker` performs no clamping — step 5 of 4
yields 125; a negative `currentStep` yields a nonpositive progress value,
and the value is strictly negative exactly when
`100 * currentStep / totalSteps < -1/2` (so `-25` at step `-1` of 4, but
`0` at step `-1` of 300). -/
theorem progress_no_clamping :
    progressOf 5 4 = 125
  ∧ progressOf (-1) 4 = -25
  ∧ progressOf (-1) 300 = 0
  ∧ (∀ c t : Int, 1 ≤ t → c < 0 → progressOf c t ≤ 0)
  ∧ (∀ c t : Int, 1 ≤ t →
      (progressOf c t < 0 ↔ 100 * (c : ℚ) / (t : ℚ) < -1 / 2)) := by
  refine ⟨by norm_num [progressOf, jsRound], by norm_num [progressOf, jsRound],
    by norm_num [progressOf, jsRound], ?_, ?_⟩
  · intro c t ht hc
    unfold progressOf jsRound
    have ht' : (0 : ℚ) < (t : ℚ) := by exact_mod_cast lt_of_lt_of_le Int.zero_lt_one ht
    have hc' : (c : ℚ) < 0 := by exact_mod_cast hc
    have hq : (c : ℚ) / (t : ℚ) * 100 < 0 :=
      mul_neg_of_neg_of_pos (div_neg_of_neg_of_pos hc' ht') (by norm_num)
    have hlt : (c : ℚ) / (t : ℚ) * 100 + 1 / 2 < ((1 : Int) : ℚ) := by
      push_cast
      linarith
    have := Int.floor_lt.mpr hlt
    omega
  · intro c t ht
    unfold progressOf jsRound
    rw [Int.floor_lt]
    have he : (c : ℚ) / (t : ℚ) * 100 = 100 * (c : ℚ) / (t : ℚ) := by ring
    rw [he]
    push_cast
    constructor
    · intro h
      linarith
    · intro h
      linarith

/-- Witness for C10 (amended): step -3 of 4 yields a nonpositive
progress value, and its strict negativity is decided by the quotient
condition. -/
theorem progress_no_clamping_witness : progressOf (-3) 4 ≤ 0 :=
  progress_no_clamping.2.2.2.1 (-3) 4 (by decide) (by decide)

/-- `{ ...m, [k]: v }` leaves the key list unchanged when `k` is already a
key of `m`. -/
theorem objSet_keys (m : List (String × Option JSNumber)) (k : String)
    (v : Option JSNumber) (h : k ∈ m.map Prod.fst) :
    (objSet m k v).map Prod.fst = m.map Prod.fst := by
  obtain ⟨p, hp, hpk⟩ := List.mem_map.mp h
  unfold objSet
  rw [if_pos (List.any_eq_true.mpr ⟨p, hp, by simp [hpk]⟩)]
  rw [List.map_map]
  refine List.map_congr_left ?_
  intro a _
  by_cases hak : a.1 = k
  · simp [Function.comp, hak]
  · simp [Function.comp, hak]

/-- Each event preserves the key list `["1", ..., "5"]` of
`sharingPrices`. -/
theorem applyOp_keys (st : AppState) (op : Op)
    (h : st.formData.sharingPrices.map Prod.fst = ["1", "2", "3", "4", "5"]) :
    (applyOp st op).formData.sharingPrices.map Prod.fst = ["1", "2", "3", "4", "5"] := by
  cases op with
  | inputChange f v => cases f <;> simpa [applyOp, handleInputChange] using h
  | radioChange f v => cases f <;> simpa [applyOp, handleRadioChange] using h
  | checkboxChange n => simpa [applyOp, handleCheckboxChange] using h
  | sharingPriceChange k v =>
      simp only [applyOp, handleSharingPriceChange]
      rw [objSet_keys _ _ _ ?mem]
      · exact h
      case mem =>
        rw [h]
        fin_cases k <;> decide
  | imageChange files =>
      cases files with
      | none => simpa [applyOp, handleImageChange] using h
      | some fs =>
          simp only [applyOp, handleImageChange]
          split <;> simpa using h
  | submit =>
      simp only [applyOp, handleSubmit]
      cases hv : validateForm st.formData <;> simpa [hv] using h
  | backToEdit => simpa [applyOp] using h
  | post => simpa [applyOp] using h

/-- C9 (amended): after any event sequence from the initial state, the
keys of `sharingPrices` are exactly `"1" .. "5"`, in order.  (The stored
values, however, are whatever `Number()` produced — see the
counterexample for the non-negative-integer part of the original
claim.) -/
theorem sharing_prices_keys_invariant : ∀ ops : List Op,
    (applyOps ops).formData.sharingPrices.map Prod.fst = ["1", "2", "3", "4", "5"] := by
  have step : ∀ (ops : List Op) (st : AppState),
      st.formData.sharingPrices.map Prod.fst = ["1", "2", "3", "4", "5"] →
      (ops.foldl applyOp st).formData.sharingPrices.map Prod.fst =
        ["1", "2", "3", "4", "5"] := by
    intro ops
    induction ops with
    | nil => intro st h; exact h
    | cons op rest ih =>
        intro st h
        exact ih _ (applyOp_keys st op h)
  intro ops
  exact step ops initialAppState (by decide)

/-- C9 counterexample: entering `"-5"` for the two-sharing price stores
the negative number -5, so not every reachable `sharingPrices` value is
null or a non-negative integer. -/
theorem sharing_prices_nonneg_counterexample :
    ¬ (∀ ops : List Op, ∀ p ∈ (applyOps ops).formData.sharingPrices,
        isNullOrNonnegInt p.2 = true) := by
  intro h
  exact absurd
    (h [Op.sharingPriceChange 1 "-5"] ("2", some (JSNumber.val (-5))) (by decide))
    (by decide)

/-- `dotNotLast l` holds exactly when `l` splits as `b ++ '.' :: c` with
`c` non-empty. -/
theorem dotNotLast_iff (l : List Char) :
    dotNotLast l = true ↔ ∃ b c, l = b ++ '.' :: c ∧ c ≠ [] := by
  induction l with
  | nil =>
      constructor
      · intro h
        exact absurd h (by decide)
      · rintro ⟨b, c, hbc, -⟩
        cases b <;> simp_all
  | cons x xs ih =>
      constructor
      · intro h
        simp only [dotNotLast, Bool.or_eq_true, Bool.and_eq_true] at h
        rcases h with ⟨hx, hxs⟩ | h2
        · refine ⟨[], xs, ?_, ?_⟩
          · simp [beq_iff_eq.mp hx]
          · simpa [List.isEmpty_iff] using hxs
        · obtain ⟨b, c, hbc, hc⟩ := ih.mp h2
          exact ⟨x :: b, c, by simp [hbc], hc⟩
      · rintro ⟨b, c, hbc, hc⟩
        simp only [dotNotLast, Bool.or_eq_true, Bool.and_eq_true]
        cases b with
        | nil =>
            simp only [List.nil_append, List.cons.injEq] at hbc
            obtain ⟨hx, hxs⟩ := hbc
            refine Or.inl ⟨beq_iff_eq.mpr hx, ?_⟩
            rw [hxs]
            simpa [List.isEmpty_iff] using hc
        | cons y b' =>
            simp only [List.cons_append, List.cons.injEq] at hbc
            exact Or.inr (ih.mpr ⟨b', c, hbc.2, hc⟩)

/-- `hasMidDot l` holds exactly when `l` splits as `b ++ '.' :: c` with
both `b` and `c` non-empty. -/
theorem hasMidDot_iff (l : List Char) :
    hasMidDot l = true ↔ ∃ b c, l = b ++ '.' :: c ∧ b ≠ [] ∧ c ≠ [] := by
  cases l with
  | nil =>
      constructor
      · intro h
        exact absurd h (by decide)
      · rintro ⟨b, c, hbc, hb, -⟩
        cases b <;> simp_all
  | cons x xs =>
      rw [show hasMidDot (x :: xs) = dotNotLast xs from rfl, dotNotLast_iff]
      constructor
      · rintro ⟨b, c, hbc, hc⟩
        exact ⟨x :: b, c, by simp [hbc], by simp, hc⟩
      · rintro ⟨b, c, hbc, hb, hc⟩
        cases b with
        | nil => exact absurd rfl hb
        | cons y b' =>
            simp only [List.cons_append, List.cons.injEq] at hbc
            exact ⟨b', c, hbc.2, hc⟩

/-- `takeWhile`/`dropWhile` split a list at the first character failing
the predicate. -/
theorem takeWhile_all_append (p : Char → Bool) :
    ∀ (a : List Char) (y : Char) (rest : List Char),
      (∀ x ∈ a, p x = true) → p y = false →
      (a ++ y :: rest).takeWhile p = a ∧ (a ++ y :: rest).dropWhile p = y :: rest := by
  intro a
  induction a with
  | nil =>
      intro y rest _ hy
      simp [List.takeWhile_cons, List.dropWhile_cons, hy]
  | cons x a' ih =>
      intro y rest ha hy
      have hx : p x = true := ha x (by simp)
      have h' := ih y rest (fun z hz => ha z (by simp [hz])) hy
      simp [List.takeWhile_cons, List.dropWhile_cons, hx, h'.1, h'.2]

/-- The executable `emailTest` decides exactly the denotation of the
anchored regex `^[^\s@]+@[^\s@]+\.[^\s@]+$`. -/
theorem emailTest_iff_regex (l : List Char) :
    emailTest l = true ↔ emailRegexAccepts l := by
  constructor
  · intro h
    unfold emailTest at h
    cases hd : l.dropWhile emailClassChar with
    | nil =>
        rw [hd] at h
        cases h
    | cons y r =>
        rw [hd] at h
        simp only [Bool.and_eq_true, beq_iff_eq] at h
        obtain ⟨⟨⟨hy, hne⟩, hall⟩, hmid⟩ := h
        subst hy
        obtain ⟨b, c, hbc, hb, hc⟩ := (hasMidDot_iff r).mp hmid
        refine ⟨l.takeWhile emailClassChar, b, c, ?_, ?_, hb, hc, ?_, ?_, ?_⟩
        · conv_lhs => rw [← List.takeWhile_append_dropWhile emailClassChar l]
          rw [hd, hbc]
        · simpa [List.isEmpty_iff] using hne
        · exact fun x hx => List.mem_takeWhile_imp hx
        · intro x hx
          exact List.all_eq_true.mp hall x (by rw [hbc]; exact List.mem_append_left _ hx)
        · intro x hx
          exact List.all_eq_true.mp hall x
            (by rw [hbc]; exact List.mem_append_right _ (List.mem_cons_of_mem _ hx))
  · rintro ⟨a, b, c, rfl, ha, hb, hc, hca, hcb, hcc⟩
    have hsplit := takeWhile_all_append emailClassChar a '@' (b ++ '.' :: c) hca (by decide)
    unfold emailTest
    rw [hsplit.2]
    simp only [Bool.and_eq_true, beq_iff_eq, true_and, and_true, eq_self_iff_true]
    refine ⟨⟨?_, ?_⟩, ?_⟩
    · rw [hsplit.1]
      simpa [List.isEmpty_iff] using ha
    · refine List.all_eq_true.mpr ?_
      intro x hx
      rcases List.mem_append.mp hx with hxb | hxc
      · exact hcb x hxb
      · rcases List.mem_cons.mp hxc with hdot | hmem
        · subst hdot
          decide
        · exact hcc x hmem
    · exact (hasMidDot_iff _).mpr ⟨b, c, rfl, hb, hc⟩

/-- A class character is neither whitespace nor `'@'`. -/
theorem emailClassChar_split (x : Char) (hx : emailClassChar x = true) :
    jsWhitespace x = false ∧ x ≠ '@' := by
  unfold emailClassChar at hx
  rw [Bool.and_eq_true] at hx
  obtain ⟨h1, h2⟩ := hx
  constructor
  · revert h1
    cases jsWhitespace x <;> simp
  · intro he
    subst he
    exact absurd h2 (by decide)

/-- The regex denotation coincides with the specification's shape
description: no whitespace, exactly one `'@'` preceded by non-empty text,
and an interior `'.'` after the `'@'`. -/
theorem regex_iff_shape (l : List Char) : emailRegexAccepts l ↔ emailShapeOk l := by
  constructor
  · rintro ⟨a, b, c, rfl, ha, hb, hc, hca, hcb, hcc⟩
    refine ⟨?_, ?_, a, b ++ '.' :: c, rfl, ha, b, c, rfl, hb, hc⟩
    · intro x hx
      simp only [List.mem_append, List.mem_cons] at hx
      rcases hx with hxa | hat | hxb | hdot | hxc
      · exact (emailClassChar_split x (hca x hxa)).1
      · subst hat
        decide
      · exact (emailClassChar_split x (hcb x hxb)).1
      · subst hdot
        decide
      · exact (emailClassChar_split x (hcc x hxc)).1
    · have ca : a.count '@' = 0 :=
        List.count_eq_zero.mpr (fun hm => (emailClassChar_split '@' (hca _ hm)).2 rfl)
      have cb : b.count '@' = 0 :=
        List.count_eq_zero.mpr (fun hm => (emailClassChar_split '@' (hcb _ hm)).2 rfl)
      have cc : c.count '@' = 0 :=
        List.count_eq_zero.mpr (fun hm => (emailClassChar_split '@' (hcc _ hm)).2 rfl)
      have hself : ('@' == '@') = true := by decide
      have hne : ('.' == '@') = false := by decide
      simp [List.count_append, List.count_cons, ca, cb, cc, hself, hne]
  · rintro ⟨hws, hcount, a, r, hl, ha, b, c, hr, hb, hc⟩
    subst hr
    subst hl
    have hself : ('@' == '@') = true := by decide
    have hne : ('.' == '@') = false := by decide
    have hsum : a.count '@' + (b.count '@' + c.count '@') + 1 = 1 := by
      have h0 := hcount
      simp [List.count_append, List.count_cons, hself, hne] at h0
      omega
    have ha0 : '@' ∉ a := List.count_eq_zero.mp (by omega)
    have hb0 : '@' ∉ b := List.count_eq_zero.mp (by omega)
    have hc0 : '@' ∉ c := List.count_eq_zero.mp (by omega)
    have mkClass : ∀ x, jsWhitespace x = false → x ≠ '@' → emailClassChar x = true := by
      intro x h1 h2
      unfold emailClassChar
      rw [h1]
      simp [h2]
    refine ⟨a, b, c, rfl, ha, hb, hc, ?_, ?_, ?_⟩
    · intro x hx
      exact mkClass x (hws x (by simp [hx])) (fun he => ha0 (he ▸ hx))
    · intro x hx
      exact mkClass x (hws x (by simp [hx])) (fun he => hb0 (he ▸ hx))
    · intro x hx
      exact mkClass x (hws x (by simp [hx])) (fun he => hc0 (he ▸ hx))

/-- C4: the email rule accepts a string exactly when it matches the
`local@domain.tld` shape — no whitespace, exactly one `'@'` with
non-empty text before it, and a `'.'` after the `'@'` with non-empty text
on both sides; `"a@b"` fails and `"a@b.com"` passes. -/
theorem email_rule_shape : ∀ l : List Char,
    (emailTest l = true ↔ emailRegexAccepts l)
  ∧ (emailRegexAccepts l ↔ emailShapeOk l)
  ∧ emailTest "a@b".data = false ∧ emailTest "a@b.com".data = true :=
  fun l => ⟨emailTest_iff_regex l, regex_iff_shape l, by decide, by decide⟩

/-- An ordered rule list has no failing rule exactly when every rule
passes. -/
theorem firstFailure_eq_none_iff (rules : List (Bool × Toast)) :
    firstFailure rules = none ↔ (rules.all fun r => r.1) = true := by
  induction rules with
  | nil => simp [firstFailure]
  | cons r rest ih =>
      cases hr : r.1 with
      | true =>
          simp only [firstFailure, List.findSome?, hr, if_true, List.all_cons,
            Bool.true_and] at ih ⊢
          exact ih
      | false =>
          simp [firstFailure, List.findSome?, hr]

/-- C2: `validateForm` reports exactly the first failing rule of the
ordered rule list (five falsy checks in field order, then mobile format,
email format, positive sharing price, and image presence), and succeeds
exactly when every rule passes. -/
theorem validate_first_failure : ∀ fd : FormData,
    validateForm fd = specValidate fd
  ∧ (validateForm fd = none ↔ ((specRules fd).all fun r => r.1) = true) := by
  intro fd
  have hmain : validateForm fd = specValidate fd := by
    cases h1 : fd.pgName == "" <;>
    cases h2 : fd.address == "" <;>
    cases h3 : fd.ownerName == "" <;>
    cases h4 : fd.primaryMobile == "" <;>
    cases h5 : fd.email == "" <;>
    cases h6 : mobileTest fd.primaryMobile.data <;>
    cases h7 : emailTest fd.email.data <;>
    cases h8 : hasPrice fd <;>
    cases h9 : hasImages fd <;>
    simp [validateForm, specValidate, firstFailure, specRules, requiredCheck,
      requiredFields, List.findSome?, h1, h2, h3, h4, h5, h6, h7, h8, h9]
  refine ⟨hmain, ?_⟩
  rw [hmain]
  exact firstFailure_eq_none_iff _

/-- Witness for C3: `"9876543210"` has length ten and all digits. -/
theorem mobile_rule_ten_digits_witness :
    ("9876543210".data).length = 10 ∧ ∀ c ∈ "9876543210".data, '0' ≤ c ∧ c ≤ '9' :=
  (mobile_rule_ten_digits "9876543210".data).1.mp (by decide)

/-- Witness for C4: `"a@b.com"` is accepted by the email regex. -/
theorem email_rule_shape_witness : emailRegexAccepts "a@b.com".data :=
  (email_rule_shape "a@b.com".data).1.mp (by decide)

/-- Witness for C5: after storing 5000 under key "2", some entry is
non-null and positive. -/
theorem sharing_price_rule_witness :
    ∃ p ∈ (handleSharingPriceChange "2" "5000" initialFormData).sharingPrices,
      ∃ q : ℚ, p.2 = some (JSNumber.val q) ∧ 0 < q :=
  (sharing_price_rule (handleSharingPriceChange "2" "5000" initialFormData)).1.mp (by decide)

/-- Witness for C2: on the initial record the first failing rule is the
required-pgName check. -/
theorem validate_first_failure_witness :
    validateForm initialFormData = specValidate initialFormData :=
  (validate_first_failure initialFormData).1

/-- Witness for the C9 key invariant at a concrete event sequence. -/
theorem sharing_prices_keys_invariant_witness :
    (applyOps [Op.sharingPriceChange 1 "-5", Op.submit]).formData.sharingPrices.map
      Prod.fst = ["1", "2", "3", "4", "5"] :=
  sharing_prices_keys_invariant [Op.sharingPriceChange 1 "-5", Op.submit]
